import Mathlib

/-!
Verification development for the ensemble job-scheduler configuration and
run-model status tracking of this repository.  The repository snapshot ships
the unit tests of these components; the implementation bodies
(`ert/config/queue_config.py`, `ert/run_models/base_run_model.py`) are not
part of the snapshot, so every operation below is modelled from the
specification text and pinned to the behaviour the shipped unit tests
require.  Strings are represented as lists of characters.
-/

/-- Strings of the modelled program, as plain character lists. -/
abbrev Str := List Char

deriving instance DecidableEq for Except

/-- Lower-casing of one ASCII character, as used for case-insensitive
memory-unit suffixes. -/
def lowerChar (c : Char) : Char :=
  if 'A' ≤ c ∧ c ≤ 'Z' then Char.ofNat (c.toNat + 32) else c

/-- Lower-casing of a modelled string. -/
def lowerStr (s : Str) : Str := s.map lowerChar

/-- The decimal digit characters. -/
def digitChars : Str := ("0123456789").data

/-- Whether a character is a decimal digit (`str.isdigit` of the
implementation, restricted to ASCII digits). -/
def isDigitChar (c : Char) : Bool := decide (c ∈ digitChars)

/-- The letters that can start a recognized memory-unit suffix, in lower
case. -/
def unitLetters : Str := [ 'b', 'k', 'm', 'g', 't', 'p' ]

/-- Numeric value of a decimal digit string (most significant digit first). -/
def digitsVal (s : Str) : Nat :=
  s.foldl (fun a c => a * 10 + (c.toNat - 48)) 0

/-- Modelled from the spec: the error text produced for a negative
`REALIZATION_MEMORY` value (the implementation module is not in the
snapshot; the text is pinned by `test_invalid_realization_memory`). -/
def negMemMsg : Str := ("Negative memory does not make sense in ").data

/-- Modelled from the spec: the error text produced for an unrecognized
memory unit (pinned by `test_invalid_realization_memory`). -/
def badUnitMsg : Str := ("Could not understand byte unit in ").data

/-- Modelled from the spec: the `1024`-power associated to a memory unit
suffix, case-insensitively; `none` for an unrecognized suffix.  Supported
suffixes are the empty suffix, `b`, `kb`, `mb`, `gb`, `tb`, `pb`. -/
def memUnitPow (u : Str) : Option Nat :=
  if lowerStr u = [] then some 0
  else if lowerStr u = [ 'b' ] then some 0
  else if lowerStr u = [ 'k', 'b' ] then some 1
  else if lowerStr u = [ 'm', 'b' ] then some 2
  else if lowerStr u = [ 'g', 'b' ] then some 3
  else if lowerStr u = [ 't', 'b' ] then some 4
  else if lowerStr u = [ 'p', 'b' ] then some 5
  else none

/-- Modelled from the spec: parsing of a `REALIZATION_MEMORY` setting
(`ert.config` memory-string parsing, not in the snapshot).  A string
containing a minus sign is rejected as negative memory; otherwise the
leading decimal digits give the count and the remaining suffix selects a
power of 1024; a missing digit part or an unknown suffix is rejected.
Both rejection messages carry the offending input. -/
def parse_realization_memory_str (s : Str) : Except Str Nat :=
  if '-' ∈ s then .error (negMemMsg ++ s)
  else if s.takeWhile isDigitChar = [] then .error (badUnitMsg ++ s)
  else
    match memUnitPow (s.dropWhile isDigitChar) with
    | some k => .ok (digitsVal (s.takeWhile isDigitChar) * 1024 ^ k)
    | none => .error (badUnitMsg ++ s)

/-! ## Queue configuration model -/

/-- The selectable queue backends (`QueueSystem` enum of the
configuration layer). -/
inductive QueueSystem
  | LOCAL
  | LSF
  | SLURM
  | TORQUE
deriving DecidableEq, Repr

/-- The backend a `QUEUE_OPTION` line addresses: a real backend, or the
`GENERIC` pseudo-backend used for globally-scoped options. -/
inductive OptionTarget
  | generic
  | system (qs : QueueSystem)
deriving DecidableEq, Repr

/-- One `QUEUE_OPTION` line of the configuration: target backend, option
key, and the value, `none` when the line supplies no value. -/
structure QueueOptionLine where
  target : OptionTarget
  key : Str
  value : Option Str
deriving DecidableEq, Repr

def kMAX_RUNNING : Str := ("MAX_RUNNING").data
def kSUBMIT_SLEEP : Str := ("SUBMIT_SLEEP").data
def kJOB_SCRIPT : Str := ("JOB_SCRIPT").data
def kPROJECT_CODE : Str := ("PROJECT_CODE").data
def kLSF_QUEUE : Str := ("LSF_QUEUE").data
def kBSUB_CMD : Str := ("BSUB_CMD").data
def kSQUEUE : Str := ("SQUEUE").data
def kSQUEUE_TIMEOUT : Str := ("SQUEUE_TIMEOUT").data
def kQUEUE : Str := ("QUEUE").data

/-- Modelled from the spec: the option keys every backend (and the
`GENERIC` pseudo-backend) accepts. -/
def genericKeys : List Str := [kMAX_RUNNING, kSUBMIT_SLEEP]

/-- Modelled from the spec: the backend-specific option keys each backend
accepts besides the globally-scoped ones (the per-backend option classes
are not in the snapshot; the table covers the keys the shipped tests
exercise). -/
def backendKeys : QueueSystem → List Str
  | .LOCAL => []
  | .LSF => [kLSF_QUEUE, kBSUB_CMD]
  | .SLURM => [kSQUEUE, kSQUEUE_TIMEOUT]
  | .TORQUE => [kQUEUE]

/-- The option keys known to a backend. -/
def validKeys (qs : QueueSystem) : List Str :=
  genericKeys ++ [kJOB_SCRIPT, kPROJECT_CODE] ++ backendKeys qs

def qsName : QueueSystem → Str
  | .LOCAL => ("LOCAL").data
  | .LSF => ("LSF").data
  | .SLURM => ("SLURM").data
  | .TORQUE => ("TORQUE").data

/-- Modelled from the spec: the validation error for an option key the
active backend does not know (text pinned by
`test_that_invalid_queue_option_raises_validation_error`; the quotes of
the original message are omitted). -/
def invalidOptMsg (qs : QueueSystem) (key : Str) : Str :=
  ("Invalid QUEUE_OPTION for ").data ++ qsName qs ++ (": ").data ++ key

/-- The empty option map: no key carries a value. -/
def emptyOpts : Str → Option Str := fun _ => none

/-- Setting (value `some v`) or clearing (value `none`) one key of an
option map. -/
def setOpt (acc : Str → Option Str) (k : Str) (v : Option Str) :
    Str → Option Str :=
  fun k2 => if k2 = k then v else acc k2

/-- Modelled from the spec: processing of one `QUEUE_OPTION` line.  A line
for the active backend must use a key that backend knows and then updates
the option map; a `GENERIC` line must use a globally-scoped key and
updates the same map; a line for a non-selected backend is ignored (the
implementation only warns). -/
def applyLine (qs : QueueSystem) (acc : Str → Option Str)
    (line : QueueOptionLine) : Except Str (Str → Option Str) :=
  match line.target with
  | .generic =>
      if line.key ∈ genericKeys then .ok (setOpt acc line.key line.value)
      else .error (invalidOptMsg qs line.key)
  | .system qs2 =>
      if qs2 = qs then
        if line.key ∈ validKeys qs then .ok (setOpt acc line.key line.value)
        else .error (invalidOptMsg qs line.key)
      else .ok acc

/-- Line-by-line resolution of the `QUEUE_OPTION` list, in file order. -/
def resolveAux (qs : QueueSystem) (acc : Str → Option Str) :
    List QueueOptionLine → Except Str (Str → Option Str)
  | [] => .ok acc
  | line :: rest =>
      match applyLine qs acc line with
      | .error e => .error e
      | .ok acc2 => resolveAux qs acc2 rest

/-- Modelled from the spec: resolution of all `QUEUE_OPTION` lines of a
configuration into the option map of the active backend. -/
def resolveOptions (qs : QueueSystem) (lines : List QueueOptionLine) :
    Except Str (Str → Option Str) :=
  resolveAux qs emptyOpts lines

/-- Optional-sign decimal integer parsing of an option value. -/
def parseIntStr (s : Str) : Option Int :=
  match s with
  | '-' :: rest =>
      if rest ≠ [] ∧ rest.all isDigitChar then some (-(digitsVal rest : Int))
      else none
  | _ =>
      if s ≠ [] ∧ s.all isDigitChar then some (digitsVal s : Int)
      else none

/-- Decimal number parsing (optional minus sign, digits, optional
fractional digits) of an option value, as an exact rational. -/
def parseDecStr (s : Str) : Option Rat :=
  match s with
  | '-' :: rest => (parseDecStr rest).map (fun q => -q)
  | _ =>
      let ip := s.takeWhile isDigitChar
      let rest := s.dropWhile isDigitChar
      if ip = [] then none
      else
        match rest with
        | [] => some ((digitsVal ip : Int) : Rat)
        | '.' :: fp =>
            if fp ≠ [] ∧ fp.all isDigitChar then
              some ((digitsVal ip : Rat) +
                mkRat (digitsVal fp : Int) (10 ^ fp.length))
            else none
        | _ => none

/-- Modelled from the spec: the pydantic-style validation message for a
value below zero (text pinned by
`test_wrong_generic_queue_option_raises_validation_error`; the quotes of
the original message are omitted). -/
def geZeroMsg (s : Str) : Str :=
  ("Input should be greater than or equal to 0. Got input ").data ++ s

/-- Modelled from the spec: the validation message for a non-numeric
option value (pinned by `test_wrong_config_option_types`). -/
def notNumberMsg (s : Str) : Str :=
  ("Value ").data ++ s ++ (" should be a valid number").data

/-- Modelled from the spec: validation of the resolved `MAX_RUNNING`
value; absent means the default `0` (unlimited), a negative value is
rejected. -/
def parseMaxRunningOpt : Option Str → Except Str Nat
  | none => .ok 0
  | some s =>
      match parseIntStr s with
      | none => .error (notNumberMsg s)
      | some i => if i < 0 then .error (geZeroMsg s) else .ok i.toNat

/-- Modelled from the spec: validation of the resolved `SUBMIT_SLEEP`
value; absent means the default `0`, a negative value is rejected. -/
def parseSubmitSleepOpt : Option Str → Except Str Rat
  | none => .ok 0
  | some s =>
      match parseDecStr s with
      | none => .error (notNumberMsg s)
      | some q => if q < 0 then .error (geZeroMsg s) else .ok q

/-- Modelled from the spec: the validation messages for a bad
`MAX_SUBMIT` value (pinned by `test_wrong_max_submit_raises_validation_error`). -/
def maxSubmitIntMsg : Str :=
  ("MAX_SUBMIT must have an integer value as argument").data

def maxSubmitPosMsg : Str :=
  ("MAX_SUBMIT must have a positive integer value as argument").data

/-- Modelled from the spec: validation of the `MAX_SUBMIT` keyword;
absent means the default `2`, a non-integer value or a value below one is
rejected. -/
def parseMaxSubmit : Option Str → Except Str Nat
  | none => .ok 2
  | some s =>
      match parseIntStr s with
      | none => .error maxSubmitIntMsg
      | some i => if i ≤ 0 then .error maxSubmitPosMsg else .ok i.toNat

/-- The validated queue options of the active backend (the per-backend
option classes of the implementation merged into one record; a field of a
backend the run does not use keeps its default). -/
structure QueueOptions where
  max_running : Nat
  submit_sleep : Rat
  realization_memory : Nat
  lsf_queue : Option Str
  squeue : Str
  torque_queue : Option Str
  job_script : Option Str
  project_code : Option Str
deriving DecidableEq, Repr

/-- Built-in default for SLURM's `SQUEUE` option. -/
def squeueDefault : Str := ("squeue").data

/-- Modelled from the spec: construction of the validated `QueueOptions`
from the resolved option map and the `REALIZATION_MEMORY` keyword;
every value is validated here, before any job exists. -/
def buildOptions (r : Str → Option Str) (realMem : Option Str) :
    Except Str QueueOptions :=
  match parseMaxRunningOpt (r kMAX_RUNNING) with
  | .error e => .error e
  | .ok mr =>
      match parseSubmitSleepOpt (r kSUBMIT_SLEEP) with
      | .error e => .error e
      | .ok ss =>
          match (match realMem with
                 | none => .ok 0
                 | some s => parse_realization_memory_str s : Except Str Nat) with
          | .error e => .error e
          | .ok rm =>
              .ok { max_running := mr
                    submit_sleep := ss
                    realization_memory := rm
                    lsf_queue := r kLSF_QUEUE
                    squeue := (r kSQUEUE).getD squeueDefault
                    torque_queue := r kQUEUE
                    job_script := r kJOB_SCRIPT
                    project_code := r kPROJECT_CODE }

/-- The structured configuration input of `QueueConfig.from_dict`: the
selected backend, the `QUEUE_OPTION` lines in file order, and the
standalone `REALIZATION_MEMORY` and `MAX_SUBMIT` keywords. -/
structure ConfigDict where
  queue_system : QueueSystem
  queue_options : List QueueOptionLine
  realization_memory : Option Str
  max_submit : Option Str
deriving DecidableEq, Repr

/-- The validated queue configuration. -/
structure QueueConfig where
  queue_system : QueueSystem
  max_submit : Nat
  queue_options : QueueOptions
deriving DecidableEq, Repr

/-- Modelled from the spec: `QueueConfig.from_dict` — resolves the
`QUEUE_OPTION` lines for the active backend, validates every option
value, and fails with a configuration validation error on the first bad
entry, before any job is created. -/
def from_dict (cfg : ConfigDict) : Except Str QueueConfig :=
  match resolveOptions cfg.queue_system cfg.queue_options with
  | .error e => .error e
  | .ok r =>
      match buildOptions r cfg.realization_memory with
      | .error e => .error e
      | .ok opts =>
          match parseMaxSubmit cfg.max_submit with
          | .error e => .error e
          | .ok ms => .ok ⟨cfg.queue_system, ms, opts⟩

/-- Whether a configuration construction failed with a validation error. -/
def isError {α : Type} : Except Str α → Bool
  | .error _ => true
  | .ok _ => false

/-! ## Run model / ensemble tracker -/

/-- The realization-status strings of the snapshot layer. -/
def sFinished : Str := ("Finished").data

def sRunning : Str := ("Running").data

def sFailed : Str := ("Failed").data

def sWaiting : Str := ("Waiting").data

/-- The run-model state the status queries read: the initial
active-realizations mask of the run, the current mask, the `restart` flag
(true for a rerun, false for a fresh iteration), the live snapshot of the
current iteration as realization-index/status pairs, and the
completed-realizations mask of the previous run. -/
structure BaseRunModel where
  initial_mask : List Bool
  active_realizations : List Bool
  restart : Bool
  snapshot : List (Nat × Str)
  completed_mask : List Bool
deriving DecidableEq, Repr

/-- Count of `true` entries of a mask. -/
def countTrue (m : List Bool) : Nat := m.count true

/-- Modelled from the spec: `get_number_of_active_realizations()` of
`BaseRunModel` (the module is not in the snapshot).  For a rerun
(`restart` true) it returns the count of realizations active in the
initial mask of the run; for a fresh iteration it returns the count
active in the current mask — the branch assignment is pinned by
`test_get_number_of_active_realizations_varies_when_rerun_or_new_iteration`. -/
def get_number_of_active_realizations (brm : BaseRunModel) : Nat :=
  if brm.restart then countTrue brm.initial_mask
  else countTrue brm.active_realizations

/-- The status the live snapshot records for a realization index, if any. -/
def snapLookup (snap : List (Nat × Str)) (i : Nat) : Option Str :=
  (snap.find? (fun p => p.1 = i)).map (fun p => p.2)

/-- Modelled from the spec: the status one realization contributes to
`get_current_status()`.  An index active in the current mask contributes
the live-snapshot entry when one exists and nothing otherwise; an index
inactive in the current mask contributes a synthesized `Finished` exactly
when it was active in the initial mask and the run is a rerun (in a fresh
iteration an inactive, initially-active index is a failure carried from
the previous run and contributes nothing) — pinned by
`test_get_current_status_when_rerun` and
`test_get_current_status_for_new_iteration_when_realization_failed_in_previous_run`. -/
def realStatus (brm : BaseRunModel) (i : Nat) : Option Str :=
  if brm.active_realizations.getD i false then snapLookup brm.snapshot i
  else if brm.initial_mask.getD i false && brm.restart then some sFinished
  else none

/-- Incrementing the count of one status key of a status-count table. -/
def bump : List (Str × Nat) → Str → List (Str × Nat)
  | [], k => [(k, 1)]
  | (k2, n) :: rest, k =>
      if k2 = k then (k2, n + 1) :: rest else (k2, n) :: bump rest k

/-- Making a status key present in a status-count table without changing
any count (the `defaultdict` access the implementation performs). -/
def ensureKey (m : List (Str × Nat)) (k : Str) : List (Str × Nat) :=
  if m.any (fun p => p.1 = k) then m else m ++ [(k, 0)]

/-- The count a status-count table records for a key (zero when the key
is absent). -/
def statusCount : List (Str × Nat) → Str → Nat
  | [], _ => 0
  | (k2, n) :: rest, k => if k2 = k then n else statusCount rest k

/-- The per-realization contributions of `realStatus` accumulated, in
realization-index order, into a mapping from status name to count. -/
def statusBase (brm : BaseRunModel) : List (Str × Nat) :=
  (List.range brm.active_realizations.length).foldl
    (fun acc i =>
      match realStatus brm i with
      | some s => bump acc s
      | none => acc) []

/-- Modelled from the spec: `get_current_status()` of `BaseRunModel` —
the per-realization contributions of `realStatus` accumulated into a
mapping from status name to count; on a rerun the `Finished` key is
touched even when its count is zero. -/
def get_current_status (brm : BaseRunModel) : List (Str × Nat) :=
  if brm.restart then ensureKey (statusBase brm) sFinished
  else statusBase brm

/-- Modelled from the spec: `_create_mask_from_failed_realizations()` of
`BaseRunModel`.  When a completed-realizations mask exists, a realization
is marked failed exactly when it was initially active and not completed
(pairs beyond the shorter mask are dropped); when no completed mask
exists at all, every realization is marked failed — pinned by
`test_failed_realizations`. -/
def create_mask_from_failed_realizations (brm : BaseRunModel) : List Bool :=
  if brm.completed_mask = [] then
    List.replicate brm.initial_mask.length true
  else
    List.zipWith (fun ini comp => ini && !comp)
      brm.initial_mask brm.completed_mask

/-! ## Run-path removal model -/

/-- A filesystem path as a list of directory-name components. -/
abbrev FsPath := List Str

/-- Modelled from the spec: removal of one directory tree — every path at
or below the target disappears; removing an absent tree is a no-op. -/
def rmtree (fs : List FsPath) (p : FsPath) : List FsPath :=
  fs.filter (fun q => !(p.isPrefixOf q))

/-- The run paths of the realizations active in a mask, in index order. -/
def activePaths (mask : List Bool) (runPath : Nat → FsPath) : List FsPath :=
  ((List.range mask.length).filter (fun i => mask.getD i false)).map runPath

/-- Modelled from the spec: `rm_run_path()` of `BaseRunModel` — deletes
the run directory tree of every realization active in the current mask,
in index order, tolerating directories that are already missing. -/
def rm_run_path (fs : List FsPath) (mask : List Bool)
    (runPath : Nat → FsPath) : List FsPath :=
  (activePaths mask runPath).foldl rmtree fs

/-! ## Helper lemmas -/

theorem statusCount_bump (m : List (Str × Nat)) (c k : Str) :
    statusCount (bump m c) k = statusCount m k + (if c = k then 1 else 0) := by
  induction m with
  | nil => by_cases h : c = k <;> simp [bump, statusCount, h]
  | cons hd tl ih =>
      obtain ⟨k2, n⟩ := hd
      simp only [bump]
      by_cases h2 : k2 = c
      · simp only [if_pos h2]
        by_cases hk : k2 = k
        · have hck : c = k := h2.symm.trans hk
          simp [statusCount, hk, hck]
        · have hck : ¬ c = k := fun hx => hk (h2.trans hx)
          simp [statusCount, hk, hck]
      · simp only [if_neg h2]
        by_cases hk : k2 = k
        · have hck : ¬ c = k := fun hx => h2 (hk.trans hx.symm)
          simp [statusCount, hk, hck]
        · simp [statusCount, hk, ih]

theorem statusCount_append_zero (m : List (Str × Nat)) (k0 k : Str) :
    statusCount (m ++ [(k0, 0)]) k = statusCount m k := by
  induction m with
  | nil => by_cases h : k0 = k <;> simp [statusCount, h]
  | cons hd tl ih =>
      obtain ⟨k2, n⟩ := hd
      by_cases h : k2 = k <;> simp [statusCount, h, ih]

theorem statusCount_ensureKey (m : List (Str × Nat)) (k0 k : Str) :
    statusCount (ensureKey m k0) k = statusCount m k := by
  unfold ensureKey
  split
  · rfl
  · exact statusCount_append_zero m k0 k

theorem foldl_contrib_eq (f : Nat → Option Str) (idxs : List Nat) :
    ∀ acc : List (Str × Nat),
      idxs.foldl
        (fun acc i =>
          match f i with
          | some s => bump acc s
          | none => acc) acc
        = (idxs.filterMap f).foldl bump acc := by
  induction idxs with
  | nil => intro acc; rfl
  | cons i rest ih =>
      intro acc
      cases h : f i <;> simp [List.filterMap_cons, h, ih]

theorem statusCount_foldl_bump (l : List Str) (k : Str) :
    ∀ acc : List (Str × Nat),
      statusCount (l.foldl bump acc) k
        = statusCount acc k + l.countP (fun c => decide (c = k)) := by
  induction l with
  | nil => intro acc; simp
  | cons c rest ih =>
      intro acc
      simp only [List.foldl_cons, ih, statusCount_bump, List.countP_cons]
      by_cases h : c = k
      all_goals simp [h]
      all_goals omega

theorem countP_filterMap_status (f : Nat → Option Str) (idxs : List Nat)
    (k : Str) :
    (idxs.filterMap f).countP (fun c => decide (c = k))
      = idxs.countP (fun i => decide (f i = some k)) := by
  induction idxs with
  | nil => rfl
  | cons i rest ih =>
      cases h : f i with
      | none => simp [List.filterMap_cons, h, List.countP_cons, ih]
      | some s =>
          by_cases hs : s = k <;>
            simp [List.filterMap_cons, h, List.countP_cons, ih, hs]

/-! ## Claim C1 -/

/-- C1, counterexample: with ensemble size 5, initial mask all true and
restart true, `get_number_of_active_realizations()` returns 5, the count
of the initial mask, not the count 1 of the current mask; with restart
false it returns the count 2 of the current mask, not the count 5 of the
initial mask — so the claim's branch assignment fails on both branches. -/
theorem activeCount_branch_counterexample :
    get_number_of_active_realizations
        ⟨[true, true, true, true, true], [false, false, false, true, false],
          true, [], []⟩ = 5 ∧
    countTrue [false, false, false, true, false] = 1 ∧
    ¬ get_number_of_active_realizations
        ⟨[true, true, true, true, true], [false, false, false, true, false],
          true, [], []⟩
      = countTrue [false, false, false, true, false] ∧
    get_number_of_active_realizations
        ⟨[true, true, true, true, true], [true, true, false, false, false],
          false, [], []⟩ = 2 ∧
    ¬ get_number_of_active_realizations
        ⟨[true, true, true, true, true], [true, true, false, false, false],
          false, [], []⟩
      = countTrue [true, true, true, true, true] := by
  decide

/-- C1, amended: for a run with restart true,
`get_number_of_active_realizations()` returns the count of realizations
active in the initial mask of the run; for a run with restart false it
returns the count of realizations active in the current mask, for every
initial mask and every current mask. -/
theorem activeCount_semantics (ini cur : List Bool)
    (snap : List (Nat × Str)) (comp : List Bool) :
    get_number_of_active_realizations ⟨ini, cur, true, snap, comp⟩
        = countTrue ini ∧
    get_number_of_active_realizations ⟨ini, cur, false, snap, comp⟩
        = countTrue cur :=
  ⟨rfl, rfl⟩

/-! ## Claim C2 -/

/-- C2: with ensemble size 5 and initial mask all true,
`get_number_of_active_realizations()` returns 5 on a rerun with current
mask `[false, false, false, true, false]`, and 2 on a fresh iteration
with current mask `[true, true, false, false, false]`. -/
theorem activeCount_concrete :
    get_number_of_active_realizations
        ⟨List.replicate 5 true, [false, false, false, true, false],
          true, [], []⟩ = 5 ∧
    get_number_of_active_realizations
        ⟨List.replicate 5 true, [true, true, false, false, false],
          false, [], []⟩ = 2 := by
  decide

/-! ## Claim C4 -/

/-- C4, counterexample: on a rerun with every realization active in the
current mask and an empty live snapshot, `get_current_status()` returns
`Finished: 0` — a realization active in the current mask with no
snapshot entry contributes nothing, it is not defaulted to `Waiting` as
the claim states (the claim predicts a `Waiting` count of 3 here). -/
theorem current_status_waiting_counterexample :
    get_current_status
        ⟨[true, true, true], [true, true, true], true, [], []⟩
      = [(sFinished, 0)] ∧
    ¬ statusCount
        (get_current_status
          ⟨[true, true, true], [true, true, true], true, [], []⟩)
        sWaiting = 3 := by
  decide

/-- C4, amended: `get_current_status()` counts, for every status name,
exactly the realization indices contributing that status under this
rule: an index active in the current mask contributes its live-snapshot
entry when one exists and nothing otherwise (no `Waiting` default); an
index inactive in the current mask contributes a synthesized `Finished`
exactly when it was active in the initial mask and the run is a rerun —
in a fresh iteration such an index is a failure carried from the
previous run and contributes nothing. -/
theorem current_status_rule (brm : BaseRunModel) (k : Str) :
    statusCount (get_current_status brm) k
      = (List.range brm.active_realizations.length).countP
          (fun i => decide (realStatus brm i = some k)) := by
  have hbase : statusCount (statusBase brm) k
      = (List.range brm.active_realizations.length).countP
          (fun i => decide (realStatus brm i = some k)) := by
    unfold statusBase
    rw [foldl_contrib_eq, statusCount_foldl_bump,
      countP_filterMap_status]
    simp [statusCount]
  unfold get_current_status
  by_cases hr : brm.restart
  · simp [hr, statusCount_ensureKey, hbase]
  · simp [hr, hbase]

/-! ## Claim C5 -/

/-- C5, counterexample: with initial mask `[true, true, true]`, restart
false, current mask `[false, true, false]` and an empty snapshot,
`get_current_status()` returns the empty mapping, not `Finished: 2` as
the claim states — the synthesized `Finished` carry-over only happens on
a rerun. -/
theorem current_status_new_iteration_counterexample :
    get_current_status
        ⟨[true, true, true], [false, true, false], false, [], []⟩ = [] ∧
    ¬ statusCount
        (get_current_status
          ⟨[true, true, true], [false, true, false], false, [], []⟩)
        sFinished = 2 := by
  decide

/-- C5, amended: with initial mask `[true, true, true]` and an empty
snapshot, a rerun (restart true) with current mask
`[false, false, false]` yields `Finished: 3`; a rerun with current mask
`[false, true, false]` yields `Finished: 2`; with restart false and
current mask `[false, true, false]` the result is empty. -/
theorem current_status_concrete :
    get_current_status
        ⟨[true, true, true], [false, false, false], true, [], []⟩
      = [(sFinished, 3)] ∧
    get_current_status
        ⟨[true, true, true], [false, true, false], true, [], []⟩
      = [(sFinished, 2)] ∧
    get_current_status
        ⟨[true, true, true], [false, true, false], false, [], []⟩
      = [] := by
  decide

/-! ## Claim C6 -/

/-- C6, counterexample: with initial mask `[false, false]` and no
completed-realizations mask at all, `_create_mask_from_failed_realizations()`
returns `[true, true]`: realization 0 is inactive in the initial mask
yet marked failed, refuting the claim that inactive realizations are
never marked failed. -/
theorem failed_mask_counterexample :
    create_mask_from_failed_realizations
        ⟨[false, false], [], false, [], []⟩ = [true, true] ∧
    ([false, false] : List Bool).getD 0 false = false ∧
    (create_mask_from_failed_realizations
        ⟨[false, false], [], false, [], []⟩).getD 0 false = true := by
  decide

theorem zipWith_and_not_getD (a b : List Bool) (i : Nat) :
    (List.zipWith (fun x y => x && !y) a b).getD i false
      = (a.getD i false && !(b.getD i true)) := by
  induction a generalizing b i with
  | nil => simp
  | cons x xs ih =>
      cases b with
      | nil => simp
      | cons y ys =>
          cases i with
          | zero => simp
          | succ n => simpa using ih ys n

/-- C6, amended: when a completed-realizations mask exists,
`_create_mask_from_failed_realizations()` marks a realization failed
exactly when it was active in the initial mask and not completed (pairs
beyond the shorter mask are dropped); when no completed mask exists at
all (the previous run recorded nothing), every realization is marked
failed, regardless of the initial mask. -/
theorem failed_mask_rule (brm : BaseRunModel) :
    (brm.completed_mask = [] →
      create_mask_from_failed_realizations brm
        = List.replicate brm.initial_mask.length true) ∧
    (brm.completed_mask ≠ [] → ∀ i : Nat,
      (create_mask_from_failed_realizations brm).getD i false
        = (brm.initial_mask.getD i false
            && !(brm.completed_mask.getD i true))) := by
  constructor
  · intro h
    unfold create_mask_from_failed_realizations
    rw [if_pos h]
  · intro h i
    unfold create_mask_from_failed_realizations
    rw [if_neg h]
    exact zipWith_and_not_getD brm.initial_mask brm.completed_mask i

/-- C6, witness for the amended rule, at the rows
`initials = [true, true]`, `completed = [false, true]` and
`initials = [false]`, `completed = []` of `test_failed_realizations`. -/
theorem failed_mask_rule_witness :
    ([false, true] : List Bool) ≠ [] ∧
    (create_mask_from_failed_realizations
        ⟨[true, true], [], false, [], [false, true]⟩).getD 0 false = true ∧
    (create_mask_from_failed_realizations
        ⟨[true, true], [], false, [], [false, true]⟩).getD 1 false = false ∧
    create_mask_from_failed_realizations ⟨[false], [], false, [], []⟩
      = List.replicate 1 true := by
  refine ⟨by decide, ?_, ?_, ?_⟩
  · have h := (failed_mask_rule
      ⟨[true, true], [], false, [], [false, true]⟩).2 (by decide) 0
    simpa using h
  · have h := (failed_mask_rule
      ⟨[true, true], [], false, [], [false, true]⟩).2 (by decide) 1
    simpa using h
  · exact (failed_mask_rule ⟨[false], [], false, [], []⟩).1 rfl

/-! ## Queue-configuration helper lemmas -/

theorem resolveAux_append (qs : QueueSystem) (l1 l2 : List QueueOptionLine) :
    ∀ acc : Str → Option Str,
      resolveAux qs acc (l1 ++ l2)
        = match resolveAux qs acc l1 with
          | .error e => .error e
          | .ok r => resolveAux qs r l2 := by
  induction l1 with
  | nil => intro acc; rfl
  | cons x xs ih =>
      intro acc
      simp only [List.cons_append, resolveAux]
      cases applyLine qs acc x <;> simp [ih]

theorem resolveAux_ok_valid (qs : QueueSystem) (lines : List QueueOptionLine) :
    ∀ (acc : Str → Option Str) (r : Str → Option Str),
      resolveAux qs acc lines = .ok r →
      ∀ l ∈ lines, l.target = OptionTarget.system qs → l.key ∈ validKeys qs := by
  induction lines with
  | nil => intro acc r _ l hl; simp at hl
  | cons x xs ih =>
      intro acc r h l hl htgt
      rcases List.mem_cons.mp hl with rfl | hmem
      · by_contra hkey
        have hx : applyLine qs acc l = .error (invalidOptMsg qs l.key) := by
          unfold applyLine
          rw [htgt]
          simp [hkey]
        simp [resolveAux, hx] at h
      · cases hx : applyLine qs acc x with
        | error e => simp [resolveAux, hx] at h
        | ok acc2 =>
            simp only [resolveAux, hx] at h
            exact ih acc2 r h l hmem htgt

theorem from_dict_ok_inv (cfg : ConfigDict) (c : QueueConfig)
    (h : from_dict cfg = .ok c) :
    ∃ (r : Str → Option Str) (opts : QueueOptions) (ms : Nat),
      resolveOptions cfg.queue_system cfg.queue_options = .ok r ∧
      buildOptions r cfg.realization_memory = .ok opts ∧
      parseMaxSubmit cfg.max_submit = .ok ms ∧
      c = ⟨cfg.queue_system, ms, opts⟩ := by
  unfold from_dict at h
  split at h
  next e heq => simp at h
  next r heq =>
    split at h
    next e2 heq2 => simp at h
    next opts heq2 =>
      split at h
      next e3 heq3 => simp at h
      next ms heq3 =>
        simp only [Except.ok.injEq] at h
        exact ⟨r, opts, ms, heq, heq2, heq3, h.symm⟩

theorem buildOptions_ok_inv (r : Str → Option Str) (realMem : Option Str)
    (o : QueueOptions) (h : buildOptions r realMem = .ok o) :
    o.lsf_queue = r kLSF_QUEUE ∧
    o.squeue = (r kSQUEUE).getD squeueDefault ∧
    (r kMAX_RUNNING = none → o.max_running = 0) ∧
    (∀ s, realMem = some s →
      parse_realization_memory_str s = .ok o.realization_memory) := by
  unfold buildOptions at h
  split at h
  next e heq => simp at h
  next mr heq =>
    split at h
    next e2 heq2 => simp at h
    next ss heq2 =>
      split at h
      next e3 heq3 => simp at h
      next rm heq3 =>
        simp only [Except.ok.injEq] at h
        subst h
        refine ⟨rfl, rfl, ?_, ?_⟩
        · intro hnone
          rw [hnone] at heq
          simp only [parseMaxRunningOpt, Except.ok.injEq] at heq
          simp [← heq]
        · intro s hs
          rw [hs] at heq3
          simpa using heq3

theorem parseMaxSubmit_ok_inv (s : Str) (m : Nat)
    (h : parseMaxSubmit (some s) = .ok m) :
    ∃ i : Int, parseIntStr s = some i ∧ 0 < i := by
  simp only [parseMaxSubmit] at h
  split at h
  next hp => simp at h
  next i hp =>
    by_cases hle : i ≤ 0
    · rw [if_pos hle] at h; simp at h
    · exact ⟨i, hp, by omega⟩

theorem parse_mem_negative (s : Str) (h : ('-') ∈ s) :
    parse_realization_memory_str s = .error (negMemMsg ++ s) := by
  unfold parse_realization_memory_str
  rw [if_pos h]

/-! ## Claim C3 -/

/-- C3, counterexample: with active backend LSF, the configuration
`QUEUE_OPTION LSF MAX_RUNNING 10` followed by
`QUEUE_OPTION GENERIC MAX_RUNNING 50` resolves `max_running` to 50: the
GENERIC value overrides the value the active backend set explicitly,
refuting the claim that it is applied only as a default. -/
theorem generic_override_counterexample :
    (from_dict ⟨QueueSystem.LSF,
        [⟨OptionTarget.system QueueSystem.LSF, kMAX_RUNNING,
            some (("10").data)⟩,
         ⟨OptionTarget.generic, kMAX_RUNNING, some (("50").data)⟩],
        none, none⟩).map (fun c => c.queue_options.max_running)
      = .ok 50 ∧
    ¬ (from_dict ⟨QueueSystem.LSF,
        [⟨OptionTarget.system QueueSystem.LSF, kMAX_RUNNING,
            some (("10").data)⟩,
         ⟨OptionTarget.generic, kMAX_RUNNING, some (("50").data)⟩],
        none, none⟩).map (fun c => c.queue_options.max_running)
      = .ok 10 := by
  decide

/-- C3, amended: a globally-scoped option value supplied for the GENERIC
pseudo-backend participates in ordinary last-write-wins resolution with
the active backend's own options: a GENERIC line appended after any list
of lines sets the key's resolved value to the GENERIC value, even when
the active backend had set the same key explicitly before. -/
theorem generic_last_write_wins (qs : QueueSystem)
    (lines : List QueueOptionLine) (k v : Str) (r : Str → Option Str)
    (hk : k ∈ genericKeys) (hr : resolveOptions qs lines = .ok r) :
    resolveOptions qs (lines ++ [⟨OptionTarget.generic, k, some v⟩])
        = .ok (setOpt r k (some v)) ∧
    setOpt r k (some v) k = some v := by
  constructor
  · unfold resolveOptions at hr ⊢
    rw [resolveAux_append, hr]
    simp [resolveAux, applyLine, hk]
  · simp [setOpt]

/-- C3, witness: the amended rule applied to the configuration of
`test_global_queue_options` (explicit `LSF MAX_RUNNING 10`, then
`GENERIC MAX_RUNNING 50`). -/
theorem generic_last_write_wins_witness :
    resolveOptions QueueSystem.LSF
        ([⟨OptionTarget.system QueueSystem.LSF, kMAX_RUNNING,
            some (("10").data)⟩]
          ++ [⟨OptionTarget.generic, kMAX_RUNNING, some (("50").data)⟩])
      = .ok (setOpt (setOpt emptyOpts kMAX_RUNNING (some (("10").data)))
              kMAX_RUNNING (some (("50").data))) ∧
    setOpt (setOpt emptyOpts kMAX_RUNNING (some (("10").data)))
        kMAX_RUNNING (some (("50").data)) kMAX_RUNNING
      = some (("50").data) :=
  generic_last_write_wins QueueSystem.LSF
    [⟨OptionTarget.system QueueSystem.LSF, kMAX_RUNNING,
        some (("10").data)⟩]
    kMAX_RUNNING (("50").data)
    (setOpt emptyOpts kMAX_RUNNING (some (("10").data)))
    (by decide) rfl

/-! ## Claim C8 -/

/-- C8: constructing the configuration with an invalid queue option
value — a negative `REALIZATION_MEMORY`, a non-positive or non-integer
`MAX_SUBMIT`, or an option key unknown to the active backend — makes
`from_dict` return a validation error (no configuration value, hence no
job, is ever produced). -/
theorem queue_config_validation (cfg : ConfigDict)
    (hbad :
      (∃ l ∈ cfg.queue_options,
          l.target = OptionTarget.system cfg.queue_system ∧
          l.key ∉ validKeys cfg.queue_system) ∨
      (∃ s, cfg.realization_memory = some s ∧ ('-') ∈ s) ∨
      (∃ s, cfg.max_submit = some s ∧ parseIntStr s = none) ∨
      (∃ s i, cfg.max_submit = some s ∧ parseIntStr s = some i ∧ i ≤ 0)) :
    isError (from_dict cfg) = true := by
  cases hfd : from_dict cfg with
  | error e => rfl
  | ok c =>
      exfalso
      obtain ⟨r, opts, ms, hres, hbuild, hms, -⟩ := from_dict_ok_inv cfg c hfd
      rcases hbad with ⟨l, hl, htgt, hkey⟩ | ⟨s, hs, hdash⟩
        | ⟨s, hs, hnone⟩ | ⟨s, i, hs, hi, hle⟩
      · exact hkey
          (resolveAux_ok_valid cfg.queue_system cfg.queue_options
            emptyOpts r hres l hl htgt)
      · rw [hs] at hbuild
        have hmem := (buildOptions_ok_inv r (some s) opts hbuild).2.2.2 s rfl
        rw [parse_mem_negative s hdash] at hmem
        simp at hmem
      · rw [hs] at hms
        simp [parseMaxSubmit, hnone] at hms
      · rw [hs] at hms
        obtain ⟨j, hj, hjpos⟩ := parseMaxSubmit_ok_inv s ms hms
        rw [hi] at hj
        simp only [Option.some.injEq] at hj
        omega

/-- C8, witness: the configuration of
`test_that_invalid_queue_option_raises_validation_error` — active
backend LOCAL with the LSF-only option key `BSUB_CMD` — is rejected. -/
theorem queue_config_validation_witness :
    isError (from_dict ⟨QueueSystem.LOCAL,
        [⟨OptionTarget.system QueueSystem.LOCAL, kBSUB_CMD,
            some (("bsub").data)⟩],
        none, none⟩) = true :=
  queue_config_validation
    ⟨QueueSystem.LOCAL,
      [⟨OptionTarget.system QueueSystem.LOCAL, kBSUB_CMD,
          some (("bsub").data)⟩],
      none, none⟩
    (Or.inl ⟨⟨OptionTarget.system QueueSystem.LOCAL, kBSUB_CMD,
        some (("bsub").data)⟩,
      List.mem_singleton.mpr rfl, rfl, by decide⟩)

/-! ## Claim C10 -/

/-- C10: a `QUEUE_OPTION` line for the active backend with no value
resets the option to its built-in default — after appending the no-value
lines to any prior configuration lines, a successful construction yields
`lsf_queue = none` (LSF default, unset) and `max_running = 0` (unlimited)
for LSF, and `squeue = "squeue"` and `max_running = 0` for SLURM —
rather than the lines being rejected or an earlier value surviving. -/
theorem queue_option_reset_defaults :
    (∀ (lines : List QueueOptionLine) (c : QueueConfig),
      from_dict ⟨QueueSystem.LSF,
          lines ++ [⟨OptionTarget.system QueueSystem.LSF, kLSF_QUEUE, none⟩,
                    ⟨OptionTarget.system QueueSystem.LSF, kMAX_RUNNING, none⟩],
          none, none⟩ = .ok c →
        c.queue_options.lsf_queue = none ∧ c.queue_options.max_running = 0) ∧
    (∀ (lines : List QueueOptionLine) (c : QueueConfig),
      from_dict ⟨QueueSystem.SLURM,
          lines ++ [⟨OptionTarget.system QueueSystem.SLURM, kSQUEUE, none⟩,
                    ⟨OptionTarget.system QueueSystem.SLURM, kMAX_RUNNING, none⟩],
          none, none⟩ = .ok c →
        c.queue_options.squeue = squeueDefault ∧
        c.queue_options.max_running = 0) := by
  constructor
  · intro lines c h
    obtain ⟨r, opts, ms, hres, hbuild, -, hc⟩ :=
      from_dict_ok_inv _ c h
    unfold resolveOptions at hres
    rw [resolveAux_append] at hres
    cases hpre : resolveAux QueueSystem.LSF emptyOpts lines with
    | error e => rw [hpre] at hres; simp at hres
    | ok r0 =>
        rw [hpre] at hres
        have hval1 : kLSF_QUEUE ∈ validKeys QueueSystem.LSF := by decide
        have hval2 : kMAX_RUNNING ∈ validKeys QueueSystem.LSF := by decide
        simp only [resolveAux, applyLine, if_pos rfl, hval1, hval2,
          if_true, reduceIte, Except.ok.injEq] at hres
        have hrq : r kLSF_QUEUE = none := by
          rw [← hres]
          simp [setOpt, show ¬ kLSF_QUEUE = kMAX_RUNNING by decide]
        have hrm : r kMAX_RUNNING = none := by
          rw [← hres]
          simp [setOpt]
        obtain ⟨hlq, -, hmr0, -⟩ := buildOptions_ok_inv r none opts hbuild
        rw [hc]
        exact ⟨hlq.trans hrq, hmr0 hrm⟩
  · intro lines c h
    obtain ⟨r, opts, ms, hres, hbuild, -, hc⟩ :=
      from_dict_ok_inv _ c h
    unfold resolveOptions at hres
    rw [resolveAux_append] at hres
    cases hpre : resolveAux QueueSystem.SLURM emptyOpts lines with
    | error e => rw [hpre] at hres; simp at hres
    | ok r0 =>
        rw [hpre] at hres
        have hval1 : kSQUEUE ∈ validKeys QueueSystem.SLURM := by decide
        have hval2 : kMAX_RUNNING ∈ validKeys QueueSystem.SLURM := by decide
        simp only [resolveAux, applyLine, if_pos rfl, hval1, hval2,
          if_true, reduceIte, Except.ok.injEq] at hres
        have hrq : r kSQUEUE = none := by
          rw [← hres]
          simp [setOpt, show ¬ kSQUEUE = kMAX_RUNNING by decide]
        have hrm : r kMAX_RUNNING = none := by
          rw [← hres]
          simp [setOpt]
        obtain ⟨-, hsq, hmr0, -⟩ := buildOptions_ok_inv r none opts hbuild
        rw [hc]
        refine ⟨?_, hmr0 hrm⟩
        rw [hsq, hrq]
        rfl

/-- C10, witness: the LSF half applied to a configuration that first sets
`LSF_QUEUE` and `MAX_RUNNING` explicitly and then resets both with
no-value lines; the construction succeeds and both options are back at
their defaults. -/
theorem queue_option_reset_defaults_witness :
    from_dict ⟨QueueSystem.LSF,
        [⟨OptionTarget.system QueueSystem.LSF, kLSF_QUEUE,
            some (("myq").data)⟩,
         ⟨OptionTarget.system QueueSystem.LSF, kMAX_RUNNING,
            some (("7").data)⟩]
          ++ [⟨OptionTarget.system QueueSystem.LSF, kLSF_QUEUE, none⟩,
              ⟨OptionTarget.system QueueSystem.LSF, kMAX_RUNNING, none⟩],
        none, none⟩
      = .ok ⟨QueueSystem.LSF, 2, ⟨0, 0, 0, none, squeueDefault,
          none, none, none⟩⟩ ∧
    (⟨QueueSystem.LSF, 2, ⟨0, 0, 0, none, squeueDefault,
        none, none, none⟩⟩ : QueueConfig).queue_options.lsf_queue = none ∧
    (⟨QueueSystem.LSF, 2, ⟨0, 0, 0, none, squeueDefault,
        none, none, none⟩⟩ : QueueConfig).queue_options.max_running = 0 := by
  have h : from_dict ⟨QueueSystem.LSF,
      [⟨OptionTarget.system QueueSystem.LSF, kLSF_QUEUE,
          some (("myq").data)⟩,
       ⟨OptionTarget.system QueueSystem.LSF, kMAX_RUNNING,
          some (("7").data)⟩]
        ++ [⟨OptionTarget.system QueueSystem.LSF, kLSF_QUEUE, none⟩,
            ⟨OptionTarget.system QueueSystem.LSF, kMAX_RUNNING, none⟩],
      none, none⟩
    = .ok ⟨QueueSystem.LSF, 2, ⟨0, 0, 0, none, squeueDefault,
        none, none, none⟩⟩ := by decide
  have h2 := (queue_option_reset_defaults).1
    [⟨OptionTarget.system QueueSystem.LSF, kLSF_QUEUE,
        some (("myq").data)⟩,
     ⟨OptionTarget.system QueueSystem.LSF, kMAX_RUNNING,
        some (("7").data)⟩]
    ⟨QueueSystem.LSF, 2, ⟨0, 0, 0, none, squeueDefault,
        none, none, none⟩⟩ h
  exact ⟨h, h2.1, h2.2⟩

/-! ## Claim C7 -/

theorem lowerChar_of_digit (c : Char) (h : c ∈ digitChars) :
    lowerChar c = c := by
  have h2 : c ∈ ([ '0', '1', '2', '3', '4', '5', '6', '7', '8', '9' ] :
      List Char) := h
  fin_cases h2 <;> decide

theorem digit_not_unitLetter (c : Char) (h : c ∈ digitChars) :
    c ∉ unitLetters := by
  have h2 : c ∈ ([ '0', '1', '2', '3', '4', '5', '6', '7', '8', '9' ] :
      List Char) := h
  fin_cases h2 <;> decide

theorem dropWhile_eq_self_of_takeWhile_nil (p : Char → Bool) (u : Str)
    (h : u.takeWhile p = []) : u.dropWhile p = u := by
  cases u with
  | nil => rfl
  | cons c cs =>
      by_cases hp : p c = true
      · simp [List.takeWhile_cons, hp] at h
      · simp [List.dropWhile_cons, hp]

theorem takeWhile_append_all (p : Char → Bool) (ds u : Str)
    (hds : ∀ c ∈ ds, p c = true) (hu : u.takeWhile p = []) :
    (ds ++ u).takeWhile p = ds ∧ (ds ++ u).dropWhile p = u := by
  induction ds with
  | nil =>
      exact ⟨hu, dropWhile_eq_self_of_takeWhile_nil p u hu⟩
  | cons c cs ih =>
      have hc : p c = true := hds c (List.mem_cons_self c cs)
      have hrest : ∀ x ∈ cs, p x = true :=
        fun x hx => hds x (List.mem_cons_of_mem c hx)
      obtain ⟨h1, h2⟩ := ih hrest
      constructor
      · simp [List.takeWhile_cons, hc, h1]
      · simp [List.dropWhile_cons, hc, h2]

theorem memUnitPow_inv (u : Str) (k : Nat) (h : memUnitPow u = some k) :
    (lowerStr u = [] ∧ k = 0) ∨
    (lowerStr u = [ 'b' ] ∧ k = 0) ∨
    (lowerStr u = [ 'k', 'b' ] ∧ k = 1) ∨
    (lowerStr u = [ 'm', 'b' ] ∧ k = 2) ∨
    (lowerStr u = [ 'g', 'b' ] ∧ k = 3) ∨
    (lowerStr u = [ 't', 'b' ] ∧ k = 4) ∨
    (lowerStr u = [ 'p', 'b' ] ∧ k = 5) := by
  unfold memUnitPow at h
  split_ifs at h with h1 h2 h3 h4 h5 h6 h7 <;>
    simp only [Option.some.injEq] at h
  · exact Or.inl ⟨h1, h.symm⟩
  · exact Or.inr (Or.inl ⟨h2, h.symm⟩)
  · exact Or.inr (Or.inr (Or.inl ⟨h3, h.symm⟩))
  · exact Or.inr (Or.inr (Or.inr (Or.inl ⟨h4, h.symm⟩)))
  · exact Or.inr (Or.inr (Or.inr (Or.inr (Or.inl ⟨h5, h.symm⟩))))
  · exact Or.inr (Or.inr (Or.inr (Or.inr (Or.inr (Or.inl ⟨h6, h.symm⟩)))))
  · exact Or.inr (Or.inr (Or.inr (Or.inr (Or.inr (Or.inr ⟨h7, h.symm⟩)))))

theorem unit_facts (u L : Str) (hL : lowerStr u = L)
    (hall : ∀ c ∈ L, c ∈ unitLetters) :
    ('-') ∉ u ∧ u.takeWhile isDigitChar = [] := by
  constructor
  · intro hm
    have hmem : lowerChar ('-') ∈ L := by
      rw [← hL]
      exact List.mem_map_of_mem lowerChar hm
    have : ('-') ∈ L := by
      have he : lowerChar ('-') = ('-') := by decide
      rwa [he] at hmem
    exact absurd (hall _ this) (by decide)
  · cases hu : u with
    | nil => rfl
    | cons c0 cs =>
        have hc0 : lowerChar c0 ∈ L := by
          rw [← hL, hu]
          exact List.mem_map_of_mem lowerChar (List.mem_cons_self c0 cs)
        have hdig : isDigitChar c0 = false := by
          by_contra hb
          have hb2 : isDigitChar c0 = true := by
            cases hx : isDigitChar c0
            · exact absurd hx hb
            · rfl
          have hd : c0 ∈ digitChars := by
            have := hb2
            unfold isDigitChar at this
            exact of_decide_eq_true this
          have hlc : lowerChar c0 = c0 := lowerChar_of_digit c0 hd
          rw [hlc] at hc0
          exact digit_not_unitLetter c0 hd (hall _ hc0)
        simp [List.takeWhile_cons, hdig]

theorem memUnitPow_some_facts (u : Str) (k : Nat)
    (h : memUnitPow u = some k) :
    ('-') ∉ u ∧ u.takeWhile isDigitChar = [] := by
  rcases memUnitPow_inv u k h with
    ⟨hL, -⟩ | ⟨hL, -⟩ | ⟨hL, -⟩ | ⟨hL, -⟩ | ⟨hL, -⟩ | ⟨hL, -⟩ | ⟨hL, -⟩
  · have : u = [] := List.map_eq_nil_iff.mp hL
    subst this
    exact ⟨by simp, rfl⟩
  · exact unit_facts u _ hL (by decide)
  · exact unit_facts u _ hL (by decide)
  · exact unit_facts u _ hL (by decide)
  · exact unit_facts u _ hL (by decide)
  · exact unit_facts u _ hL (by decide)
  · exact unit_facts u _ hL (by decide)

/-- C7: for every input of the form `<int><unit>` — a nonempty digit
string of positive value followed by a suffix in
{"", b, kb, mb, gb, tb, pb} (case-insensitive, power `k`) — parsing
`REALIZATION_MEMORY` yields exactly `int * 1024 ^ k` bytes, which is
positive; an input containing a minus sign fails with the
negative-memory validation error carrying the input; an input without a
minus sign whose digit part is empty or whose remaining suffix is not a
recognized unit fails with the byte-unit validation error carrying the
input; and every failing input gets an error message that carries the
offending input. -/
theorem realization_memory_roundtrip :
    (∀ (ds u : Str) (k : Nat), ds ≠ [] →
      (∀ c ∈ ds, isDigitChar c = true) →
      0 < digitsVal ds → memUnitPow u = some k →
      parse_realization_memory_str (ds ++ u)
          = .ok (digitsVal ds * 1024 ^ k) ∧
      0 < digitsVal ds * 1024 ^ k) ∧
    (∀ s : Str, ('-') ∈ s →
      parse_realization_memory_str s = .error (negMemMsg ++ s)) ∧
    (∀ s : Str, ('-') ∉ s →
      s.takeWhile isDigitChar = [] ∨
        memUnitPow (s.dropWhile isDigitChar) = none →
      parse_realization_memory_str s = .error (badUnitMsg ++ s)) ∧
    (∀ s e : Str, parse_realization_memory_str s = .error e →
      ∃ p : Str, e = p ++ s) := by
  refine ⟨?_, ?_, ?_, ?_⟩
  · intro ds u k hne hdig hpos hu
    obtain ⟨hnd, htw⟩ := memUnitPow_some_facts u k hu
    obtain ⟨h1, h2⟩ := takeWhile_append_all isDigitChar ds u hdig htw
    have hdash : ('-') ∉ ds ++ u := by
      intro hm
      rcases List.mem_append.mp hm with h | h
      · exact absurd (hdig _ h) (by decide)
      · exact hnd h
    constructor
    · unfold parse_realization_memory_str
      rw [if_neg hdash, h1, h2, if_neg hne, hu]
    · exact Nat.mul_pos hpos (Nat.pos_pow_of_pos k (by norm_num))
  · intro s hm
    unfold parse_realization_memory_str
    rw [if_pos hm]
  · intro s hnd hbad
    unfold parse_realization_memory_str
    rw [if_neg hnd]
    by_cases ht : s.takeWhile isDigitChar = []
    · rw [if_pos ht]
    · have hu : memUnitPow (s.dropWhile isDigitChar) = none := by
        rcases hbad with h | h
        · exact absurd h ht
        · exact h
      rw [if_neg ht, hu]
  · intro s e h
    unfold parse_realization_memory_str at h
    split_ifs at h with h1 h2
    · simp only [Except.error.injEq] at h
      exact ⟨negMemMsg, h.symm⟩
    · simp only [Except.error.injEq] at h
      exact ⟨badUnitMsg, h.symm⟩
    · split at h
      · simp at h
      · simp only [Except.error.injEq] at h
        exact ⟨badUnitMsg, h.symm⟩

/-- C7, witness: the round-trip applied to the concrete test inputs
`10kb` (yielding `10 * 1024` bytes), `-1b` (rejected as negative memory
with the input named in the message), and `b` and `4ub` (rejected as
unrecognized byte units with the input named in the message). -/
theorem realization_memory_roundtrip_witness :
    parse_realization_memory_str (("10kb").data)
        = .ok (digitsVal (("10").data) * 1024 ^ 1) ∧
    0 < digitsVal (("10").data) * 1024 ^ 1 ∧
    parse_realization_memory_str (("-1b").data)
        = .error (negMemMsg ++ ("-1b").data) ∧
    parse_realization_memory_str (("b").data)
        = .error (badUnitMsg ++ ("b").data) ∧
    parse_realization_memory_str (("4ub").data)
        = .error (badUnitMsg ++ ("4ub").data) := by
  have h := realization_memory_roundtrip.1 (("10").data) (("kb").data) 1
    (by decide) (by decide) (by decide) (by decide)
  exact ⟨h.1, h.2,
    realization_memory_roundtrip.2.1 (("-1b").data) (by decide),
    realization_memory_roundtrip.2.2.1 (("b").data) (by decide)
      (Or.inl (by decide)),
    realization_memory_roundtrip.2.2.1 (("4ub").data) (by decide)
      (Or.inr (by decide))⟩

/-! ## Claim C9 -/

theorem foldl_rmtree_filter (ps : List FsPath) :
    ∀ fs : List FsPath,
      ps.foldl rmtree fs
        = fs.filter (fun q => ps.all (fun p => !(p.isPrefixOf q))) := by
  induction ps with
  | nil => intro fs; simp
  | cons p ps ih =>
      intro fs
      simp only [List.foldl_cons, ih, rmtree]
      rw [List.filter_filter]
      apply List.filter_congr
      intro a _
      simp [List.all_cons, Bool.and_comm]

theorem mem_activePaths (mask : List Bool) (rp : Nat → FsPath)
    (p : FsPath) :
    p ∈ activePaths mask rp
      ↔ ∃ i, i < mask.length ∧ mask.getD i false = true ∧ rp i = p := by
  unfold activePaths
  simp only [List.mem_map, List.mem_filter, List.mem_range]
  constructor
  · rintro ⟨i, ⟨hi, hact⟩, hp⟩
    exact ⟨i, hi, hact, hp⟩
  · rintro ⟨i, hi, hact, hp⟩
    exact ⟨i, ⟨hi, hact⟩, hp⟩

theorem mem_rm_run_path (fs : List FsPath) (mask : List Bool)
    (rp : Nat → FsPath) (q : FsPath) :
    q ∈ rm_run_path fs mask rp
      ↔ q ∈ fs ∧ ∀ i, i < mask.length → mask.getD i false = true →
          (rp i).isPrefixOf q = false := by
  unfold rm_run_path
  rw [foldl_rmtree_filter, List.mem_filter]
  constructor
  · rintro ⟨hq, hall⟩
    refine ⟨hq, fun i hi hact => ?_⟩
    have hp : rp i ∈ activePaths mask rp :=
      (mem_activePaths mask rp (rp i)).mpr ⟨i, hi, hact, rfl⟩
    have := List.all_eq_true.mp hall (rp i) hp
    simpa using this
  · rintro ⟨hq, hall⟩
    refine ⟨hq, List.all_eq_true.mpr fun p hp => ?_⟩
    obtain ⟨i, hi, hact, rfl⟩ := (mem_activePaths mask rp p).mp hp
    simpa using hall i hi hact

/-- C9: with run paths that are not nested inside each other (as the
runpath template guarantees), `rm_run_path()` removes the run-directory
trees of exactly the realizations active in the mask: an active
realization's run path is gone afterwards (also when it was already
missing, so partially-missing directories are tolerated), an inactive
realization's run path is present afterwards exactly when it was present
before, and any path not under an active run path — a parent directory,
a sibling `share` directory — is untouched. -/
theorem rm_run_path_frame (fs : List FsPath) (mask : List Bool)
    (rp : Nat → FsPath)
    (hsep : ∀ i j, i < mask.length → j < mask.length → i ≠ j →
      (rp i).isPrefixOf (rp j) = false) :
    (∀ i, i < mask.length → mask.getD i false = true →
      rp i ∉ rm_run_path fs mask rp) ∧
    (∀ i, i < mask.length → mask.getD i false = false →
      (rp i ∈ rm_run_path fs mask rp ↔ rp i ∈ fs)) ∧
    (∀ q : FsPath,
      (∀ i, i < mask.length → mask.getD i false = true →
        (rp i).isPrefixOf q = false) →
      (q ∈ rm_run_path fs mask rp ↔ q ∈ fs)) := by
  refine ⟨?_, ?_, ?_⟩
  · intro i hi hact hmem
    have hfalse := ((mem_rm_run_path fs mask rp (rp i)).mp hmem).2 i hi hact
    have htrue : (rp i).isPrefixOf (rp i) = true :=
      List.isPrefixOf_iff_prefix.mpr (List.prefix_refl (rp i))
    rw [htrue] at hfalse
    cases hfalse
  · intro i hi hinact
    constructor
    · intro hmem
      exact ((mem_rm_run_path fs mask rp (rp i)).mp hmem).1
    · intro hmem
      rw [mem_rm_run_path]
      refine ⟨hmem, fun j hj hact => ?_⟩
      have hij : j ≠ i := by
        intro he
        subst he
        rw [hact] at hinact
        cases hinact
      exact hsep j i hj hi hij
  · intro q hq
    rw [mem_rm_run_path]
    exact ⟨fun h => h.1, fun h => ⟨h, hq⟩⟩

/-- C9, witness: two realizations with run directories named `0` and `1`
plus a sibling `share` directory, active mask `[true, false]` (the
shipped `test_delete_run_path` layout): the active run directory is
removed, the inactive one and the `share` directory survive. -/
theorem rm_run_path_frame_witness :
    ([ [ '0' ] ] : FsPath) ∉ rm_run_path
        [ [ [ '0' ] ], [ [ '1' ] ], [ ("share").data ] ]
        [true, false] (fun i => [ [ Char.ofNat (48 + i) ] ]) ∧
    (([ [ '1' ] ] : FsPath) ∈ rm_run_path
        [ [ [ '0' ] ], [ [ '1' ] ], [ ("share").data ] ]
        [true, false] (fun i => [ [ Char.ofNat (48 + i) ] ])
      ↔ ([ [ '1' ] ] : FsPath)
          ∈ [ [ [ '0' ] ], [ [ '1' ] ], [ ("share").data ] ]) ∧
    (([ ("share").data ] : FsPath) ∈ rm_run_path
        [ [ [ '0' ] ], [ [ '1' ] ], [ ("share").data ] ]
        [true, false] (fun i => [ [ Char.ofNat (48 + i) ] ])
      ↔ ([ ("share").data ] : FsPath)
          ∈ [ [ [ '0' ] ], [ [ '1' ] ], [ ("share").data ] ]) := by
  have h := rm_run_path_frame
    [ [ [ '0' ] ], [ [ '1' ] ], [ ("share").data ] ]
    [true, false] (fun i => [ [ Char.ofNat (48 + i) ] ])
    (by
      intro i j hi hj hij
      simp only [List.length_cons, List.length_nil] at hi hj
      interval_cases i <;> interval_cases j <;> first | omega | decide)
  exact ⟨h.1 0 (by decide) (by decide),
    h.2.1 1 (by decide) (by decide),
    h.2.2 [ ("share").data ] (by
      intro i hi hact
      simp only [List.length_cons, List.length_nil] at hi
      interval_cases i <;> decide)⟩
